import Mathlib

/-!
Verification of the network session and event-dispatch layer of the
skitspel party-game server.

The development shallowly embeds the Rust sources:

* common/skitspel/src/action.rs   — the ActionEvent enum
* common/skitspel/src/player.rs   — PlayerId and PlayerIdGenerator
* plugins/network/src/event.rs    — wire codec (decode_message) and event types
* plugins/network/src/network.rs  — NetworkContext, the event_message_handler
  dispatcher loop body, and the two read-side iterators.

Machine bytes are modelled as Nat (values < 256 where relevant); Rust u64
arithmetic is modelled with an explicit modulus 2^64.  Fallible or
panic-capable code paths return Option, or an explicit result type with a
`panicked` constructor.  Channels (smol / async-channel) are modelled as
bounded FIFO buffers (lists); `try_send` on a full or closed channel drops
the message, `try_recv` yields the oldest buffered message, reports Empty
on an open empty channel and Closed on a closed empty channel, matching the
documented async-channel semantics.
-/

/-- PlayerId is a newtype over u64 (player.rs); ids only need equality and
order here, so we model them as Nat. -/
abbrev PlayerId := Nat

/-- The twelve button edge events plus None (action.rs). -/
inductive ActionEvent
  | UpPressed
  | UpReleased
  | RightPressed
  | RightReleased
  | DownPressed
  | DownReleased
  | LeftPressed
  | LeftReleased
  | APressed
  | AReleased
  | BPressed
  | BReleased
  | None
deriving DecidableEq

/-- GeneralEvent (event.rs).  The websocket sink is an opaque resource; we
model it as a Nat handle.  The name is the list of Unicode code points of
the Rust String. -/
inductive GeneralEvent
  | Connected (name : List Nat) (sink : Option Nat)
  | Disconnected
deriving DecidableEq

/-- The hand-written Clone impl for GeneralEvent (event.rs): cloning a
Connected event drops the sink. -/
def GeneralEvent.clone : GeneralEvent → GeneralEvent
  | .Connected name _ => .Connected name none
  | .Disconnected => .Disconnected

/-- NetworkEvent (event.rs). -/
inductive NetworkEvent
  | General (g : GeneralEvent)
  | Action (a : ActionEvent)
  | Invalid (data : List Nat)
deriving DecidableEq

/-- The derived Clone for NetworkEvent delegates to GeneralEvent.clone for
the General variant and copies the others. -/
def NetworkEvent.clone : NetworkEvent → NetworkEvent
  | .General g => .General g.clone
  | .Action a => .Action a
  | .Invalid d => .Invalid d

/-- EventMessage (event.rs): an event tagged with the originating player. -/
structure EventMessage where
  player_id : PlayerId
  event : NetworkEvent
deriving DecidableEq

/-- Second and later bytes of a multi-byte UTF-8 sequence. -/
def isUtf8Cont (b : Nat) : Bool := 128 ≤ b && b ≤ 191

/-- UTF-8 validation and decoding as performed by Rust std str::from_utf8:
returns the code points when the byte list is valid UTF-8 (no overlongs, no
surrogates, max U+10FFFF), and none otherwise. -/
def utf8Decode : List Nat → Option (List Nat)
  | [] => some []
  | b0 :: rest =>
    if b0 ≤ 127 then
      (utf8Decode rest).map (fun cs => b0 :: cs)
    else if 194 ≤ b0 && b0 ≤ 223 then
      match rest with
      | b1 :: rest2 =>
        if isUtf8Cont b1 then
          (utf8Decode rest2).map (fun cs => ((b0 - 192) * 64 + (b1 - 128)) :: cs)
        else none
      | [] => none
    else if 224 ≤ b0 && b0 ≤ 239 then
      match rest with
      | b1 :: b2 :: rest2 =>
        let okB1 :=
          if b0 = 224 then 160 ≤ b1 && b1 ≤ 191
          else if b0 = 237 then 128 ≤ b1 && b1 ≤ 159
          else isUtf8Cont b1
        if okB1 && isUtf8Cont b2 then
          (utf8Decode rest2).map
            (fun cs => ((b0 - 224) * 4096 + (b1 - 128) * 64 + (b2 - 128)) :: cs)
        else none
      | _ => none
    else if 240 ≤ b0 && b0 ≤ 244 then
      match rest with
      | b1 :: b2 :: b3 :: rest2 =>
        let okB1 :=
          if b0 = 240 then 144 ≤ b1 && b1 ≤ 191
          else if b0 = 244 then 128 ≤ b1 && b1 ≤ 143
          else isUtf8Cont b1
        if okB1 && isUtf8Cont b2 && isUtf8Cont b3 then
          (utf8Decode rest2).map
            (fun cs =>
              ((b0 - 240) * 262144 + (b1 - 128) * 4096 + (b2 - 128) * 64 + (b3 - 128)) :: cs)
        else none
      | _ => none
    else none

/-- decode_action_event (event.rs).  Indexing data[1] is modelled with get?,
so an out-of-bounds access would surface as none (a panic); the length
guard makes that impossible.  The u8 match is translated to an equality
chain on the byte value. -/
def decode_action_event (data : List Nat) : Option NetworkEvent :=
  if data.length ≠ 2 then some (.Invalid data)
  else
    match data.get? 1 with
    | Option.none => Option.none
    | some b =>
      some (
        if b = 0 then .Action .UpPressed
        else if b = 1 then .Action .UpReleased
        else if b = 2 then .Action .RightPressed
        else if b = 3 then .Action .RightReleased
        else if b = 4 then .Action .DownPressed
        else if b = 5 then .Action .DownReleased
        else if b = 6 then .Action .LeftPressed
        else if b = 7 then .Action .LeftReleased
        else if b = 8 then .Action .APressed
        else if b = 9 then .Action .AReleased
        else if b = 10 then .Action .BPressed
        else if b = 11 then .Action .BReleased
        else .Invalid data)

/-- decode_connect_event (event.rs).  The slice data[1..] panics when data
is empty (modelled as none); on success, from_utf8 of the remainder either
gives the name or the event is Invalid. -/
def decode_connect_event (data : List Nat) : Option NetworkEvent :=
  match data with
  | [] => Option.none
  | _ :: rest =>
    some (
      match utf8Decode rest with
      | some name => .General (.Connected name Option.none)
      | Option.none => .Invalid data)

/-- decode_message (event.rs): empty input is Invalid with an empty
payload; otherwise dispatch on the first byte. -/
def decode_message (data : List Nat) : Option NetworkEvent :=
  match data with
  | [] => some (.Invalid [])
  | b0 :: _ =>
    if b0 = 0 then decode_action_event data
    else if b0 = 1 then decode_connect_event data
    else some (.Invalid data)

/-- PlayerIdGenerator (player.rs): a single u64 counter.  Rust u64
increment wraps at 2^64 in release builds, so the successor is taken
modulo U64_MOD. -/
def U64_MOD : Nat := 18446744073709551616

structure PlayerIdGenerator where
  id : Nat
deriving DecidableEq

/-- generate (player.rs): return the current counter value and advance the
counter. -/
def PlayerIdGenerator.generate (g : PlayerIdGenerator) : PlayerId × PlayerIdGenerator :=
  (g.id, ⟨(g.id + 1) % U64_MOD⟩)

/-- The Default impl seeds the counter at 1 (player.rs). -/
def PlayerIdGenerator.default : PlayerIdGenerator := ⟨1⟩

/-- The ids returned by n successive generate() calls from state g. -/
def generateList : Nat → PlayerIdGenerator → List PlayerId
  | 0, _ => []
  | n + 1, g => (g.generate).1 :: generateList n (g.generate).2

/-- Association-list lookup, modelling HashMap::get. -/
def alookup {α : Type} : List (Nat × α) → Nat → Option α
  | [], _ => Option.none
  | (k, v) :: rest, key => if k = key then some v else alookup rest key

/-- In-place update of an existing key, modelling mutation through
HashMap::get_mut; absent keys leave the map unchanged. -/
def aset {α : Type} : List (Nat × α) → Nat → α → List (Nat × α)
  | [], _, _ => []
  | (k, v) :: rest, key, newv =>
    if k = key then (k, newv) :: rest else (k, v) :: aset rest key newv

/-- Removal of a key, modelling HashMap::remove. -/
def aremove {α : Type} : List (Nat × α) → Nat → List (Nat × α)
  | [], _ => []
  | (k, v) :: rest, key =>
    if k = key then aremove rest key else (k, v) :: aremove rest key

/-- Insertion, modelling HashMap::insert (replaces an existing entry). -/
def ainsert {α : Type} (l : List (Nat × α)) (key : Nat) (v : α) : List (Nat × α) :=
  (key, v) :: aremove l key

/-- Key removal for a key list (the dispatcher's local sender table is
tracked by its key set; the channel buffers live in client_channels). -/
def removeKey : List Nat → Nat → List Nat
  | [], _ => []
  | k :: rest, key => if k = key then removeKey rest key else k :: removeKey rest key

/-- The channel buffer size used for the per-player action channels and
the common channel (network.rs). -/
def EVENT_CHANNEL_BUF_SIZE : Nat := 20

/-- A bounded smol channel holding EventMessages: its buffered contents
oldest-first, and whether it has been closed. -/
structure GeneralChannel where
  buf : List EventMessage
  closed : Bool
deriving DecidableEq

/-- Result of one GeneralMessageIter::next call: a yielded message, the
iterator reporting None, or a panic. -/
inductive NextResult
  | panicked
  | yielded (m : EventMessage)
  | finished
deriving DecidableEq

/-- GeneralMessageIter::next (network.rs): if the context's common channel
is unset, the question-mark operator returns None; otherwise try_recv is
non-blocking: the oldest buffered message is yielded if one exists
(async-channel delivers buffered messages even after close), an open empty
channel reports Empty (mapped to None), and a closed empty channel reports
Closed (the code panics). -/
def general_message_iter_next (ch : Option GeneralChannel) :
    NextResult × Option GeneralChannel :=
  match ch with
  | Option.none => (.finished, Option.none)
  | some c =>
    match c.buf with
    | m :: rest => (.yielded m, some ⟨rest, c.closed⟩)
    | [] => if c.closed then (.panicked, some c) else (.finished, some c)

/-- The dispatcher-visible state (network.rs): the local sender table
client_channels_tx (keys only; the buffers are shared with the receivers
in client_channels), the NetworkContext maps client_channels and
client_websockets, and the buffer of the bounded common channel. -/
structure DispatcherState where
  client_channels_tx : List PlayerId
  client_channels : List (PlayerId × List ActionEvent)
  client_websockets : List (PlayerId × Nat)
  common_queue : List EventMessage
deriving DecidableEq

/-- Outcome of processing one EventMessage in the event_message_handler
loop: a new state, a suspension on the full common channel (the blocking
send path), or a panic (the two unreachable arms). -/
inductive StepResult
  | panicked
  | blocked
  | ok (s : DispatcherState)
deriving DecidableEq

/-- try_send on a bounded channel: append when there is room, otherwise
the message is dropped. -/
def trySendAction (q : List ActionEvent) (e : ActionEvent) : List ActionEvent :=
  if q.length < EVENT_CHANNEL_BUF_SIZE then q ++ [e] else q

/-- First block of the loop body (network.rs): on a Connected event carrying
a sink, create the player's bounded action channel and register the sink;
a Connected event without a sink hits the unreachable arm. -/
def connectPhase (s : DispatcherState) (m : EventMessage) : Option DispatcherState :=
  match m.event with
  | .General (.Connected _ sink_opt) =>
    match sink_opt with
    | some sink => some { s with
        client_channels := ainsert s.client_channels m.player_id [],
        client_channels_tx := m.player_id :: removeKey s.client_channels_tx m.player_id,
        client_websockets := ainsert s.client_websockets m.player_id sink }
    | Option.none => Option.none
  | _ => some s

/-- Second block of the loop body (network.rs): an Action event is routed
through the local sender table with try_send (dropped when the channel is
full or closed; unreachable when the player has no sender); an Invalid
event is forwarded to the common channel with try_send (dropped when
full); any other General event is forwarded with a blocking send, which
suspends the dispatcher when the common channel is full.  The forwarded
message carries event.clone(). -/
def routePhase (s : DispatcherState) (m : EventMessage) : StepResult :=
  match m.event with
  | .Action car_event =>
    if m.player_id ∈ s.client_channels_tx then
      match alookup s.client_channels m.player_id with
      | some q => .ok { s with
          client_channels :=
            aset s.client_channels m.player_id (trySendAction q car_event) }
      | Option.none => .ok s
    else .panicked
  | .Invalid _ =>
    .ok { s with common_queue :=
      if s.common_queue.length < EVENT_CHANNEL_BUF_SIZE
      then s.common_queue ++ [⟨m.player_id, m.event.clone⟩]
      else s.common_queue }
  | .General _ =>
    if s.common_queue.length < EVENT_CHANNEL_BUF_SIZE
    then .ok { s with common_queue := s.common_queue ++ [⟨m.player_id, m.event.clone⟩] }
    else .blocked

/-- Third block of the loop body (network.rs): after a Disconnected event
is forwarded, drop the player's sender, close and remove the receiver, and
remove the websocket sink. -/
def disconnectPhase (s : DispatcherState) (m : EventMessage) : DispatcherState :=
  match m.event with
  | .General .Disconnected => { s with
      client_channels_tx := removeKey s.client_channels_tx m.player_id,
      client_channels := aremove s.client_channels m.player_id,
      client_websockets := aremove s.client_websockets m.player_id }
  | _ => s

/-- One iteration of the event_message_handler loop (network.rs). -/
def event_message_handler_step (s : DispatcherState) (m : EventMessage) : StepResult :=
  match connectPhase s m with
  | Option.none => .panicked
  | some s1 =>
    match routePhase s1 m with
    | .ok s2 => .ok (disconnectPhase s2 m)
    | r => r

/-- Sequential processing of a list of ingress messages; none records that
some step panicked or suspended. -/
def runDispatcher : DispatcherState → List EventMessage → Option DispatcherState
  | s, [] => some s
  | s, m :: rest =>
    match event_message_handler_step s m with
    | .ok s2 => runDispatcher s2 rest
    | _ => Option.none

/-- The dispatcher state at startup: empty maps and an empty common
channel. -/
def initialDispatcherState : DispatcherState := ⟨[], [], [], []⟩

/-- Whether a player is live after one more message, per the spec reading:
a Connected event carrying a sink opens the interval, Disconnected closes
it, every other message leaves it unchanged. -/
def stepLive (b : Bool) (m : EventMessage) (pid : PlayerId) : Bool :=
  if m.player_id = pid then
    match m.event with
    | .General (.Connected _ (some _)) => true
    | .General .Disconnected => false
    | _ => b
  else b

/-- Whether a player's connection is live after the dispatcher has
processed the trace: inside the Connected/Disconnected interval. -/
def liveAfter (tr : List EventMessage) (pid : PlayerId) : Bool :=
  tr.foldl (fun b m => stepLive b m pid) false

/-- The read side of NetworkContext (network.rs) as seen by the bevy
systems: the common channel receiver and the two per-player maps. -/
structure NetworkContext where
  common_client_channel : Option GeneralChannel
  client_channels : List (PlayerId × List ActionEvent)
  client_websockets : List (PlayerId × Nat)
deriving DecidableEq

/-- ActionMessageIter (network.rs): the snapshot of player ids and the
cursor into it. -/
structure ActionMessageIter where
  player_ids : List PlayerId
  cur_player_idx : Nat
deriving DecidableEq

/-- NetworkContext::iter_action (network.rs): only when the EventTimer has
just finished does it return an iterator, whose snapshot is the current
key set of client_websockets and whose cursor starts at 0.  The timer tick
is abstracted to the boolean just_finished. -/
def NetworkContext.iter_action (ctx : NetworkContext) (just_finished : Bool) :
    Option ActionMessageIter :=
  if just_finished then some ⟨ctx.client_websockets.map Prod.fst, 0⟩ else Option.none

/-- The result of try_recv on a per-player action channel: the oldest
buffered event, or ActionEvent.None when the buffer is empty (the Empty
and Closed errors both map to None in the iterator). -/
def headOrNone : List ActionEvent → ActionEvent
  | [] => ActionEvent.None
  | e :: _ => e

/-- ActionMessageIter::next (network.rs): stop when the cursor is past the
snapshot; stop (without advancing) when the player's receiver is gone from
client_channels; otherwise try_recv one event (the oldest buffered one, or
ActionEvent::None when the channel is empty or closed), advance the
cursor, and yield the pair. -/
def ActionMessageIter.next (it : ActionMessageIter)
    (channels : List (PlayerId × List ActionEvent)) :
    Option (PlayerId × ActionEvent) × ActionMessageIter × List (PlayerId × List ActionEvent) :=
  match it.player_ids.get? it.cur_player_idx with
  | Option.none => (Option.none, it, channels)
  | some player_id =>
    match alookup channels player_id with
    | Option.none => (Option.none, it, channels)
    | some q =>
      (some (player_id, headOrNone q), ⟨it.player_ids, it.cur_player_idx + 1⟩,
        aset channels player_id q.tail)

/-- Repeatedly call ActionMessageIter::next until it yields none,
collecting the yielded pairs and threading the channel map; fuel bounds
the number of calls (the snapshot length suffices). -/
def runActionIter : Nat → ActionMessageIter → List (PlayerId × List ActionEvent) →
    List (PlayerId × ActionEvent) × List (PlayerId × List ActionEvent)
  | 0, _, channels => ([], channels)
  | fuel + 1, it, channels =>
    match it.next channels with
    | (Option.none, _, channels2) => ([], channels2)
    | (some p, it2, channels2) =>
      let r := runActionIter fuel it2 channels2
      (p :: r.1, r.2)

/-- Structural form of the full drain: walk the remaining snapshot ids in
order, popping at most one event per player. -/
def drainActions : List PlayerId → List (PlayerId × List ActionEvent) →
    List (PlayerId × ActionEvent) × List (PlayerId × List ActionEvent)
  | [], channels => ([], channels)
  | pid :: rest, channels =>
    match alookup channels pid with
    | Option.none => ([], channels)
    | some q =>
      let r := drainActions rest (aset channels pid q.tail)
      ((pid, headOrNone q) :: r.1, r.2)

/-- The oldest unconsumed action event of a player, or ActionEvent.None
when the player's queue is empty or absent. -/
def oldestOf (channels : List (PlayerId × List ActionEvent)) (pid : PlayerId) :
    ActionEvent :=
  match alookup channels pid with
  | some (e :: _) => e
  | _ => ActionEvent.None

/-- A full common queue (20 identical diagnostic messages), used to
exhibit the backpressure behaviour at a concrete state. -/
def fullCommonQueue : List EventMessage :=
  List.replicate 20 ⟨0, .Invalid []⟩

/-- A dispatcher state whose common channel is full. -/
def cexState : DispatcherState := ⟨[], [], [], fullCommonQueue⟩

/-- A full per-player action queue. -/
def fullActionQueue : List ActionEvent := List.replicate 20 .UpPressed

/-- A dispatcher state with one registered player whose action queue is
full, and a full common channel. -/
def sFullW : DispatcherState := ⟨[1], [(1, fullActionQueue)], [(1, 0)], fullCommonQueue⟩

/-- A concrete ingress trace: player 7 connects, presses Up, disconnects. -/
def traceW : List EventMessage :=
  [⟨7, .General (.Connected [65] (some 3))⟩, ⟨7, .Action .UpPressed⟩,
   ⟨7, .General .Disconnected⟩]

/-- The dispatcher state after processing traceW from startup. -/
def sfW : DispatcherState :=
  ⟨[], [], [],
   [⟨7, .General (.Connected [65] Option.none)⟩, ⟨7, .General .Disconnected⟩]⟩

/-- A dispatcher state with player 7 registered and one queued event. -/
def sW : DispatcherState := ⟨[7], [(7, [ActionEvent.UpPressed])], [(7, 3)], []⟩

/-- The disconnect message of player 7. -/
def mW : EventMessage := ⟨7, .General .Disconnected⟩

/-- The state obtained from sW by processing mW. -/
def tW : DispatcherState := ⟨[], [], [], [⟨7, .General .Disconnected⟩]⟩

/-- A concrete read-side context: two connected players, one with two
queued action events and one with an empty queue. -/
def ctxW : NetworkContext :=
  ⟨Option.none,
   [(4, [ActionEvent.APressed, ActionEvent.BPressed]), (6, [])],
   [(4, 10), (6, 11)]⟩

/-- The action iterator produced by ctxW when the gate fires. -/
def itW : ActionMessageIter := ⟨[4, 6], 0⟩

theorem generateList_eq_range' :
    ∀ (n s : Nat), s + n ≤ U64_MOD → generateList n ⟨s⟩ = List.range' s n := by
  intro n
  induction n with
  | zero => intro s _; rfl
  | succ n ih =>
    intro s h
    show s :: generateList n ⟨(s + 1) % U64_MOD⟩ = List.range' s (n + 1)
    cases n with
    | zero => simp [generateList, List.range'_succ]
    | succ m =>
      have hs : (s + 1) % U64_MOD = s + 1 := Nat.mod_eq_of_lt (by omega)
      rw [hs, ih (s + 1) (by omega)]
      simp [List.range'_succ]

theorem decode_action_event_isSome (b0 : Nat) (rest : List Nat) :
    (decode_action_event (b0 :: rest)).isSome := by
  cases rest with
  | nil => simp [decode_action_event]
  | cons b1 rest2 =>
    cases rest2 with
    | nil => simp [decode_action_event]
    | cons b2 rest3 => simp [decode_action_event]

theorem decode_connect_event_isSome (b0 : Nat) (rest : List Nat) :
    (decode_connect_event (b0 :: rest)).isSome := by
  simp [decode_connect_event]

/-- Claim C4: decode_message is a pure total function.  For every input
byte sequence (empty, malformed, or arbitrarily long) it returns a
NetworkEvent; the Option layer records every panic-capable operation
(out-of-bounds indexing and slicing), and the result is always some. -/
theorem decode_message_total (data : List Nat) : (decode_message data).isSome := by
  cases data with
  | nil => rfl
  | cons b0 rest =>
    simp only [decode_message]
    split_ifs with h0 h1
    · exact decode_action_event_isSome b0 rest
    · exact decode_connect_event_isSome b0 rest
    · rfl

/-- Claim C3: the wire codec reproduces the wire table bit-exactly.  Codes
0 through 11 map to the twelve ActionEvent variants; a first-byte-0 message
of length other than 2, or with second byte above 11, is Invalid with the
original bytes; first byte 1 gives Connected with exactly the UTF-8
decoding of the remainder (and no sink) when it is valid UTF-8 and Invalid
with the original bytes otherwise; any other first byte is Invalid with
the original bytes; empty input is Invalid with an empty payload. -/
theorem decode_message_wire_table :
    (decode_message [0, 0] = some (.Action .UpPressed) ∧
     decode_message [0, 1] = some (.Action .UpReleased) ∧
     decode_message [0, 2] = some (.Action .RightPressed) ∧
     decode_message [0, 3] = some (.Action .RightReleased) ∧
     decode_message [0, 4] = some (.Action .DownPressed) ∧
     decode_message [0, 5] = some (.Action .DownReleased) ∧
     decode_message [0, 6] = some (.Action .LeftPressed) ∧
     decode_message [0, 7] = some (.Action .LeftReleased) ∧
     decode_message [0, 8] = some (.Action .APressed) ∧
     decode_message [0, 9] = some (.Action .AReleased) ∧
     decode_message [0, 10] = some (.Action .BPressed) ∧
     decode_message [0, 11] = some (.Action .BReleased)) ∧
    (∀ rest : List Nat, (0 :: rest).length ≠ 2 →
      decode_message (0 :: rest) = some (.Invalid (0 :: rest))) ∧
    (∀ b : Nat, 11 < b → decode_message [0, b] = some (.Invalid [0, b])) ∧
    (∀ rest name : List Nat, utf8Decode rest = some name →
      decode_message (1 :: rest) = some (.General (.Connected name none))) ∧
    (∀ rest : List Nat, utf8Decode rest = none →
      decode_message (1 :: rest) = some (.Invalid (1 :: rest))) ∧
    (∀ (b0 : Nat) (rest : List Nat), 1 < b0 →
      decode_message (b0 :: rest) = some (.Invalid (b0 :: rest))) ∧
    decode_message [] = some (.Invalid []) := by
  refine ⟨by decide, ?_, ?_, ?_, ?_, ?_, rfl⟩
  · intro rest hlen
    have hr : rest.length ≠ 1 := by
      intro hr1
      exact hlen (by simp [hr1])
    simp [decode_message, decode_action_event, hlen]
    intro h
    exact absurd h hr
  · intro b hb
    have h0 : b ≠ 0 := by omega
    have h1 : b ≠ 1 := by omega
    have h2 : b ≠ 2 := by omega
    have h3 : b ≠ 3 := by omega
    have h4 : b ≠ 4 := by omega
    have h5 : b ≠ 5 := by omega
    have h6 : b ≠ 6 := by omega
    have h7 : b ≠ 7 := by omega
    have h8 : b ≠ 8 := by omega
    have h9 : b ≠ 9 := by omega
    have h10 : b ≠ 10 := by omega
    have h11 : b ≠ 11 := by omega
    simp [decode_message, decode_action_event, h0, h1, h2, h3, h4, h5, h6, h7,
      h8, h9, h10, h11]
  · intro rest name hdec
    simp [decode_message, decode_connect_event, hdec]
  · intro rest hdec
    simp [decode_message, decode_connect_event, hdec]
  · intro b0 rest hb
    have h0 : b0 ≠ 0 := by omega
    have h1 : b0 ≠ 1 := by omega
    simp [decode_message, h0, h1]

theorem decode_message_wire_table_witness :
    decode_message [0, 1, 2] = some (.Invalid [0, 1, 2]) ∧
    decode_message [0, 12] = some (.Invalid [0, 12]) ∧
    decode_message [1, 65, 98] = some (.General (.Connected [65, 98] none)) ∧
    decode_message [1, 255] = some (.Invalid [1, 255]) ∧
    decode_message [5, 7] = some (.Invalid [5, 7]) := by
  have h := decode_message_wire_table
  exact ⟨h.2.1 [1, 2] (by decide), h.2.2.1 12 (by decide),
    h.2.2.2.1 [65, 98] [65, 98] (by decide),
    h.2.2.2.2.1 [255] (by decide),
    h.2.2.2.2.2.1 5 [7] (by decide)⟩

/-- Claim C9: the hand-written Clone for GeneralEvent preserves the variant
but never duplicates the outbound sink: Connected(name, sink_opt) clones to
Connected(name, None) for every sink_opt, and Disconnected clones to
Disconnected. -/
theorem general_event_clone_drops_sink :
    (∀ (name : List Nat) (sink_opt : Option Nat),
      GeneralEvent.clone (.Connected name sink_opt) = .Connected name none) ∧
    GeneralEvent.clone .Disconnected = .Disconnected :=
  ⟨fun _ _ => rfl, rfl⟩

/-- Claim C5: from the Default seed, every sequence of generate() calls
(of any length realizable by the u64 counter) returns strictly increasing
ids, the first returned id is 1, and no id is returned twice. -/
theorem player_id_generator_monotonic (n : Nat) (h : n < U64_MOD) (hn : 0 < n) :
    List.Pairwise (fun a b : PlayerId => a < b)
      (generateList n PlayerIdGenerator.default) ∧
    (generateList n PlayerIdGenerator.default).head? = some 1 ∧
    (generateList n PlayerIdGenerator.default).Nodup := by
  have he : generateList n PlayerIdGenerator.default = List.range' 1 n :=
    generateList_eq_range' n 1 (by omega)
  rw [he]
  refine ⟨List.pairwise_lt_range' 1 n, ?_, List.nodup_range' 1 n⟩
  cases n with
  | zero => omega
  | succ m => rw [List.range'_succ]; rfl

theorem player_id_generator_monotonic_witness :
    List.Pairwise (fun a b : PlayerId => a < b)
      (generateList 4 PlayerIdGenerator.default) ∧
    (generateList 4 PlayerIdGenerator.default).head? = some 1 ∧
    (generateList 4 PlayerIdGenerator.default).Nodup :=
  player_id_generator_monotonic 4 (by norm_num [U64_MOD]) (by norm_num)

theorem alookup_aremove_self {α : Type} (l : List (Nat × α)) (k : Nat) :
    alookup (aremove l k) k = Option.none := by
  induction l with
  | nil => rfl
  | cons p rest ih =>
    obtain ⟨k0, v0⟩ := p
    by_cases h : k0 = k <;> simp [aremove, alookup, h, ih]

theorem alookup_aremove_ne {α : Type} (l : List (Nat × α)) (k key : Nat)
    (h : key ≠ k) : alookup (aremove l k) key = alookup l key := by
  induction l with
  | nil => rfl
  | cons p rest ih =>
    obtain ⟨k0, v0⟩ := p
    by_cases h0 : k0 = k
    · subst h0
      have hne : k0 ≠ key := fun he => h (he ▸ rfl)
      simp [aremove, alookup, hne, ih]
    · by_cases h1 : k0 = key
      · subst h1
        simp [aremove, alookup, h0, ih]
      · simp [aremove, alookup, h0, h1, ih]

theorem alookup_ainsert_self {α : Type} (l : List (Nat × α)) (k : Nat) (v : α) :
    alookup (ainsert l k v) k = some v := by
  simp [ainsert, alookup]

theorem alookup_ainsert_ne {α : Type} (l : List (Nat × α)) (k key : Nat) (v : α)
    (h : key ≠ k) : alookup (ainsert l k v) key = alookup l key := by
  have : k ≠ key := fun he => h he.symm
  simp [ainsert, alookup, this, alookup_aremove_ne l k key h]

theorem alookup_aset_self {α : Type} (l : List (Nat × α)) (k : Nat) (v q : α)
    (h : alookup l k = some q) : alookup (aset l k v) k = some v := by
  induction l with
  | nil => simp [alookup] at h
  | cons p rest ih =>
    obtain ⟨k0, v0⟩ := p
    by_cases h0 : k0 = k
    · simp [aset, alookup, h0]
    · simp [alookup, h0] at h
      simp [aset, alookup, h0, ih h]

theorem alookup_aset_ne {α : Type} (l : List (Nat × α)) (k key : Nat) (v : α)
    (h : key ≠ k) : alookup (aset l k v) key = alookup l key := by
  induction l with
  | nil => rfl
  | cons p rest ih =>
    obtain ⟨k0, v0⟩ := p
    by_cases h0 : k0 = k
    · subst h0
      have hne : k0 ≠ key := fun he => h (he ▸ rfl)
      simp [aset, alookup, hne, ih]
    · by_cases h1 : k0 = key
      · subst h1
        simp [aset, alookup, h0, ih]
      · simp [aset, alookup, h0, h1, ih]

theorem alookup_aset_isSome {α : Type} (l : List (Nat × α)) (k key : Nat) (v : α) :
    (alookup (aset l k v) key).isSome = (alookup l key).isSome := by
  induction l with
  | nil => rfl
  | cons p rest ih =>
    obtain ⟨k0, v0⟩ := p
    by_cases h0 : k0 = k
    · subst h0
      by_cases h1 : k0 = key <;> simp [aset, alookup, h1, ih]
    · by_cases h1 : k0 = key
      · subst h1
        simp [aset, alookup, h0, ih]
      · simp [aset, alookup, h0, h1, ih]

theorem aset_eq_of_lookup {α : Type} (l : List (Nat × α)) (k : Nat) (q : α)
    (h : alookup l k = some q) : aset l k q = l := by
  induction l with
  | nil => rfl
  | cons p rest ih =>
    obtain ⟨k0, v0⟩ := p
    by_cases h0 : k0 = k
    · simp [alookup, h0] at h
      simp [aset, h0, h]
    · simp [alookup, h0] at h
      simp [aset, h0, ih h]

theorem mem_removeKey (l : List Nat) (k key : Nat) :
    key ∈ removeKey l k ↔ key ∈ l ∧ key ≠ k := by
  induction l with
  | nil => simp [removeKey]
  | cons k0 rest ih =>
    by_cases h0 : k0 = k
    · subst h0
      rw [removeKey, if_pos rfl, ih, List.mem_cons]
      constructor
      · rintro ⟨hm, hne⟩
        exact ⟨Or.inr hm, hne⟩
      · rintro ⟨he | hm, hne⟩
        · exact absurd he hne
        · exact ⟨hm, hne⟩
    · rw [removeKey, if_neg h0, List.mem_cons, ih, List.mem_cons]
      constructor
      · rintro (he | ⟨hm, hne⟩)
        · subst he
          exact ⟨Or.inl rfl, fun hk => h0 hk⟩
        · exact ⟨Or.inr hm, hne⟩
      · rintro ⟨he | hm, hne⟩
        · exact Or.inl he
        · exact Or.inr ⟨hm, hne⟩

theorem routePhase_membership (s t : DispatcherState) (m : EventMessage)
    (pid : PlayerId) (h : routePhase s m = .ok t) :
    (alookup t.client_channels pid).isSome = (alookup s.client_channels pid).isSome ∧
    t.client_websockets = s.client_websockets ∧
    t.client_channels_tx = s.client_channels_tx := by
  obtain ⟨mpid, mev⟩ := m
  cases mev with
  | Action a =>
    simp only [routePhase] at h
    by_cases htx : mpid ∈ s.client_channels_tx
    · rw [if_pos htx] at h
      cases hq : alookup s.client_channels mpid with
      | none =>
        rw [hq] at h
        injection h with h2
        subst h2
        exact ⟨rfl, rfl, rfl⟩
      | some q =>
        rw [hq] at h
        injection h with h2
        subst h2
        exact ⟨alookup_aset_isSome _ _ _ _, rfl, rfl⟩
    · rw [if_neg htx] at h
      exact StepResult.noConfusion h
  | Invalid d =>
    simp only [routePhase] at h
    injection h with h2
    subst h2
    exact ⟨rfl, rfl, rfl⟩
  | General g =>
    simp only [routePhase] at h
    by_cases hc : s.common_queue.length < EVENT_CHANNEL_BUF_SIZE
    · rw [if_pos hc] at h
      injection h with h2
      subst h2
      exact ⟨rfl, rfl, rfl⟩
    · rw [if_neg hc] at h
      exact StepResult.noConfusion h

theorem step_membership (s t : DispatcherState) (m : EventMessage) (pid : PlayerId)
    (h : event_message_handler_step s m = .ok t) :
    (alookup t.client_channels pid).isSome
        = stepLive (alookup s.client_channels pid).isSome m pid ∧
    (alookup t.client_websockets pid).isSome
        = stepLive (alookup s.client_websockets pid).isSome m pid ∧
    decide (pid ∈ t.client_channels_tx)
        = stepLive (decide (pid ∈ s.client_channels_tx)) m pid := by
  obtain ⟨mpid, mev⟩ := m
  cases mev with
  | Action a =>
    have hcp : connectPhase s ⟨mpid, .Action a⟩ = some s := rfl
    simp only [event_message_handler_step, hcp] at h
    cases hr : routePhase s ⟨mpid, .Action a⟩ with
    | ok s2 =>
      rw [hr] at h
      injection h with h2
      subst h2
      obtain ⟨h1, h2ws, h3tx⟩ :=
        routePhase_membership s _ ⟨mpid, .Action a⟩ pid hr
      simp only [disconnectPhase]
      exact ⟨by simp [stepLive, h1], by simp [stepLive, h2ws], by simp [stepLive, h3tx]⟩
    | panicked => rw [hr] at h; exact StepResult.noConfusion h
    | blocked => rw [hr] at h; exact StepResult.noConfusion h
  | Invalid d =>
    have hcp : connectPhase s ⟨mpid, .Invalid d⟩ = some s := rfl
    simp only [event_message_handler_step, hcp] at h
    cases hr : routePhase s ⟨mpid, .Invalid d⟩ with
    | ok s2 =>
      rw [hr] at h
      injection h with h2
      subst h2
      obtain ⟨h1, h2ws, h3tx⟩ :=
        routePhase_membership s _ ⟨mpid, .Invalid d⟩ pid hr
      simp only [disconnectPhase]
      exact ⟨by simp [stepLive, h1], by simp [stepLive, h2ws], by simp [stepLive, h3tx]⟩
    | panicked => rw [hr] at h; exact StepResult.noConfusion h
    | blocked => rw [hr] at h; exact StepResult.noConfusion h
  | General g =>
    cases g with
    | Connected name sink_opt =>
      cases sink_opt with
      | none =>
        have hcp : connectPhase s ⟨mpid, .General (.Connected name Option.none)⟩
            = Option.none := rfl
        simp only [event_message_handler_step, hcp] at h
        exact StepResult.noConfusion h
      | some kk =>
        have hcp : connectPhase s ⟨mpid, .General (.Connected name (some kk))⟩
            = some { s with
                client_channels := ainsert s.client_channels mpid [],
                client_channels_tx := mpid :: removeKey s.client_channels_tx mpid,
                client_websockets := ainsert s.client_websockets mpid kk } := rfl
        simp only [event_message_handler_step, hcp] at h
        cases hr : routePhase { s with
            client_channels := ainsert s.client_channels mpid [],
            client_channels_tx := mpid :: removeKey s.client_channels_tx mpid,
            client_websockets := ainsert s.client_websockets mpid kk }
            ⟨mpid, .General (.Connected name (some kk))⟩ with
        | ok s2 =>
          rw [hr] at h
          injection h with h2
          subst h2
          obtain ⟨h1, h2ws, h3tx⟩ := routePhase_membership _ _ _ pid hr
          simp only [disconnectPhase]
          by_cases hpid : mpid = pid
          · subst hpid
            refine ⟨?_, ?_, ?_⟩
            · rw [h1]
              simp [stepLive, alookup_ainsert_self]
            · rw [h2ws]
              simp [stepLive, alookup_ainsert_self]
            · simp only [h3tx]
              simp [stepLive, List.mem_cons]
          · have hne : pid ≠ mpid := fun he => hpid he.symm
            refine ⟨?_, ?_, ?_⟩
            · rw [h1]
              simp [stepLive, hpid, alookup_ainsert_ne _ _ _ _ hne]
            · rw [h2ws]
              simp [stepLive, hpid, alookup_ainsert_ne _ _ _ _ hne]
            · simp only [h3tx]
              simp [stepLive, hpid, List.mem_cons, mem_removeKey, hne]
        | panicked => rw [hr] at h; exact StepResult.noConfusion h
        | blocked => rw [hr] at h; exact StepResult.noConfusion h
    | Disconnected =>
      have hcp : connectPhase s ⟨mpid, .General .Disconnected⟩ = some s := rfl
      simp only [event_message_handler_step, hcp] at h
      cases hr : routePhase s ⟨mpid, .General .Disconnected⟩ with
      | ok s2 =>
        rw [hr] at h
        injection h with h2
        subst h2
        obtain ⟨h1, h2ws, h3tx⟩ :=
          routePhase_membership s _ ⟨mpid, .General .Disconnected⟩ pid hr
        simp only [disconnectPhase]
        by_cases hpid : mpid = pid
        · subst hpid
          refine ⟨?_, ?_, ?_⟩
          · simp [stepLive, alookup_aremove_self]
          · simp [stepLive, alookup_aremove_self]
          · simp [stepLive, mem_removeKey]
        · have hne : pid ≠ mpid := fun he => hpid he.symm
          refine ⟨?_, ?_, ?_⟩
          · rw [alookup_aremove_ne _ _ _ hne, h1]
            simp [stepLive, hpid]
          · rw [alookup_aremove_ne _ _ _ hne, h2ws]
            simp [stepLive, hpid]
          · simp [stepLive, hpid, mem_removeKey, hne, h3tx]
      | panicked => rw [hr] at h; exact StepResult.noConfusion h
      | blocked => rw [hr] at h; exact StepResult.noConfusion h

theorem run_membership :
    ∀ (tr : List EventMessage) (s sf : DispatcherState) (pid : PlayerId),
      runDispatcher s tr = some sf →
      (alookup sf.client_channels pid).isSome
          = tr.foldl (fun b m => stepLive b m pid)
              (alookup s.client_channels pid).isSome ∧
      (alookup sf.client_websockets pid).isSome
          = tr.foldl (fun b m => stepLive b m pid)
              (alookup s.client_websockets pid).isSome ∧
      decide (pid ∈ sf.client_channels_tx)
          = tr.foldl (fun b m => stepLive b m pid)
              (decide (pid ∈ s.client_channels_tx)) := by
  intro tr
  induction tr with
  | nil =>
    intro s sf pid h
    simp only [runDispatcher] at h
    injection h with h2
    subst h2
    exact ⟨rfl, rfl, rfl⟩
  | cons m rest ih =>
    intro s sf pid h
    simp only [runDispatcher] at h
    cases hs : event_message_handler_step s m with
    | ok s2 =>
      rw [hs] at h
      obtain ⟨m1, m2, m3⟩ := step_membership s s2 m pid hs
      obtain ⟨r1, r2, r3⟩ := ih s2 sf pid h
      simp only [List.foldl_cons]
      exact ⟨by rw [r1, m1], by rw [r2, m2], by rw [r3, m3]⟩
    | panicked => rw [hs] at h; exact Option.noConfusion h
    | blocked => rw [hs] at h; exact Option.noConfusion h

/-- Claim C2: a PlayerId is present in client_channels and in
client_websockets exactly while its connection is live (after its
Connected event was processed, before its Disconnected event), for any
successfully processed ingress trace from startup; and the Disconnected
handling is the only step that removes a player from these maps: any ok
step that drops a present player was exactly that player's Disconnected
message. -/
theorem dispatcher_lifecycle (tr : List EventMessage) (pid : PlayerId)
    (sf s t : DispatcherState) (m : EventMessage)
    (hrun : runDispatcher initialDispatcherState tr = some sf)
    (hstep : event_message_handler_step s m = .ok t)
    (hshrink :
      ((alookup s.client_channels pid).isSome = true ∧
       (alookup t.client_channels pid).isSome = false) ∨
      ((alookup s.client_websockets pid).isSome = true ∧
       (alookup t.client_websockets pid).isSome = false)) :
    ((alookup sf.client_channels pid).isSome = liveAfter tr pid ∧
     (alookup sf.client_websockets pid).isSome = liveAfter tr pid ∧
     decide (pid ∈ sf.client_channels_tx) = liveAfter tr pid) ∧
    m.player_id = pid ∧ m.event = .General .Disconnected := by
  constructor
  · exact run_membership tr initialDispatcherState sf pid hrun
  · obtain ⟨m1, m2, m3⟩ := step_membership s t m pid hstep
    obtain ⟨mpid, mev⟩ := m
    by_cases hpid : mpid = pid
    · subst hpid
      refine ⟨rfl, ?_⟩
      rcases hshrink with ⟨hb, ha⟩ | ⟨hb, ha⟩
      · rw [ha, hb] at m1
        cases mev with
        | General g =>
          cases g with
          | Connected name so =>
            cases so with
            | none => simp [stepLive] at m1
            | some k => simp [stepLive] at m1
          | Disconnected => rfl
        | Action a => simp [stepLive] at m1
        | Invalid d => simp [stepLive] at m1
      · rw [ha, hb] at m2
        cases mev with
        | General g =>
          cases g with
          | Connected name so =>
            cases so with
            | none => simp [stepLive] at m2
            | some k => simp [stepLive] at m2
          | Disconnected => rfl
        | Action a => simp [stepLive] at m2
        | Invalid d => simp [stepLive] at m2
    · exfalso
      rcases hshrink with ⟨hb, ha⟩ | ⟨hb, ha⟩
      · rw [ha, hb] at m1
        simp [stepLive, hpid] at m1
      · rw [ha, hb] at m2
        simp [stepLive, hpid] at m2

theorem dispatcher_lifecycle_witness :
    ((alookup sfW.client_channels 7).isSome = liveAfter traceW 7 ∧
     (alookup sfW.client_websockets 7).isSome = liveAfter traceW 7 ∧
     decide (7 ∈ sfW.client_channels_tx) = liveAfter traceW 7) ∧
    mW.player_id = 7 ∧ mW.event = .General .Disconnected :=
  dispatcher_lifecycle traceW 7 sfW sW tW mW (by decide) (by decide)
    (Or.inl ⟨by decide, by decide⟩)

/-- Claim C6: routing an Action event to a full per-player action queue,
and forwarding an Invalid event to a full common queue, both drop the new
event silently through a non-blocking try_send: the step completes with
the state unchanged — no suspension, no panic, no error. -/
theorem full_queues_drop_new_silently (s : DispatcherState) (pid : PlayerId)
    (a : ActionEvent) (bytes : List Nat) (q : List ActionEvent)
    (htx : pid ∈ s.client_channels_tx)
    (hq : alookup s.client_channels pid = some q)
    (hqfull : ¬ q.length < EVENT_CHANNEL_BUF_SIZE)
    (hcfull : ¬ s.common_queue.length < EVENT_CHANNEL_BUF_SIZE) :
    event_message_handler_step s ⟨pid, .Action a⟩ = .ok s ∧
    event_message_handler_step s ⟨pid, .Invalid bytes⟩ = .ok s := by
  constructor
  · have h1 : trySendAction q a = q := by simp [trySendAction, hqfull]
    have h2 : aset s.client_channels pid (trySendAction q a) = s.client_channels := by
      rw [h1]
      exact aset_eq_of_lookup _ _ _ hq
    simp [event_message_handler_step, connectPhase, routePhase, disconnectPhase,
      htx, hq, h2]
  · simp [event_message_handler_step, connectPhase, routePhase, disconnectPhase,
      hcfull]

theorem full_queues_drop_new_silently_witness :
    event_message_handler_step sFullW ⟨1, .Action .BPressed⟩ = .ok sFullW ∧
    event_message_handler_step sFullW ⟨1, .Invalid [9]⟩ = .ok sFullW :=
  full_queues_drop_new_silently sFullW 1 .BPressed [9] fullActionQueue
    (by decide) (by decide) (by decide) (by decide)

/-- Claim C7 counterexample: at a concrete state whose common queue is
full, forwarding a new Invalid event leaves the queue unchanged — the
incoming (newest) event is dropped and the oldest queued event is kept,
contradicting the claim that the oldest is dropped to make room; and a
Disconnected event at the same state suspends the dispatcher (blocking
send), contradicting the claim that enqueueing into a full general queue
never suspends it. -/
theorem general_queue_drop_oldest_cex :
    event_message_handler_step cexState ⟨9, .Invalid [1]⟩ = .ok cexState ∧
    (⟨9, .Invalid [1]⟩ : EventMessage) ∉ cexState.common_queue ∧
    cexState.common_queue.head? = some ⟨0, .Invalid []⟩ ∧
    event_message_handler_step cexState ⟨9, .General .Disconnected⟩ = .blocked := by
  decide

/-- Claim C7 (amended): under backpressure on the full bounded general
queue, an Invalid event is dropped (the newest — the incoming event —
rather than the oldest) through a non-blocking try_send that never
suspends the dispatcher, while non-action General events (Disconnected,
and Connected replays) use a blocking send that suspends the dispatcher
until space is available. -/
theorem general_queue_backpressure (s : DispatcherState) (pid kk : PlayerId)
    (bytes name : List Nat)
    (hcfull : ¬ s.common_queue.length < EVENT_CHANNEL_BUF_SIZE) :
    event_message_handler_step s ⟨pid, .Invalid bytes⟩ = .ok s ∧
    event_message_handler_step s ⟨pid, .General .Disconnected⟩ = .blocked ∧
    event_message_handler_step s ⟨pid, .General (.Connected name (some kk))⟩
      = .blocked := by
  refine ⟨?_, ?_, ?_⟩
  · simp [event_message_handler_step, connectPhase, routePhase, disconnectPhase,
      hcfull]
  · simp [event_message_handler_step, connectPhase, routePhase, hcfull]
  · simp [event_message_handler_step, connectPhase, routePhase, hcfull]

theorem general_queue_backpressure_witness :
    event_message_handler_step cexState ⟨2, .Invalid [4]⟩ = .ok cexState ∧
    event_message_handler_step cexState ⟨2, .General .Disconnected⟩ = .blocked ∧
    event_message_handler_step cexState ⟨2, .General (.Connected [66] (some 5))⟩
      = .blocked :=
  general_queue_backpressure cexState 2 5 [4] [66] (by decide)

/-- Claim C8: protocol invariant violations are fatal: an Action event for
a player with no registered action-queue sender hits an unreachable arm
(panic), and a Connected event whose sink is None hits an unreachable arm
(panic); neither is handled as a recoverable error. -/
theorem protocol_violation_panics (s : DispatcherState) (pid : PlayerId)
    (a : ActionEvent) (name : List Nat)
    (htx : pid ∉ s.client_channels_tx) :
    event_message_handler_step s ⟨pid, .Action a⟩ = .panicked ∧
    event_message_handler_step s ⟨pid, .General (.Connected name Option.none)⟩
      = .panicked := by
  constructor
  · simp [event_message_handler_step, connectPhase, routePhase, htx]
  · rfl

theorem protocol_violation_panics_witness :
    event_message_handler_step initialDispatcherState ⟨1, .Action .UpPressed⟩
      = .panicked ∧
    event_message_handler_step initialDispatcherState
      ⟨1, .General (.Connected [] Option.none)⟩ = .panicked :=
  protocol_violation_panics initialDispatcherState 1 .UpPressed [] (by decide)

theorem runActionIter_eq_drain :
    ∀ (fuel : Nat) (ids : List PlayerId) (i : Nat)
      (channels : List (PlayerId × List ActionEvent)),
      ids.length - i ≤ fuel →
      runActionIter fuel ⟨ids, i⟩ channels = drainActions (ids.drop i) channels := by
  intro fuel
  induction fuel with
  | zero =>
    intro ids i channels h
    have hd : ids.drop i = [] := List.drop_eq_nil_of_le (by omega)
    rw [hd]
    rfl
  | succ fuel ih =>
    intro ids i channels h
    cases hg : ids.get? i with
    | none =>
      have hge : ids.length ≤ i := List.get?_eq_none.mp hg
      have hd : ids.drop i = [] := List.drop_eq_nil_of_le hge
      rw [hd]
      simp only [runActionIter, ActionMessageIter.next, hg]
      rfl
    | some pid =>
      have hlt : i < ids.length := (List.get?_eq_some.mp hg).1
      have hgete : ids[i] = pid := by
        obtain ⟨hh, he⟩ := List.get?_eq_some.mp hg
        simpa using he
      have hd : ids.drop i = pid :: ids.drop (i + 1) := by
        rw [List.drop_eq_getElem_cons hlt, hgete]
      rw [hd]
      cases hq : alookup channels pid with
      | none =>
        simp only [runActionIter, ActionMessageIter.next, hg, hq, drainActions]
      | some q =>
        simp only [runActionIter, ActionMessageIter.next, hg, hq, drainActions]
        rw [ih ids (i + 1) _ (by omega)]

theorem drainActions_spec :
    ∀ (ids : List PlayerId) (channels : List (PlayerId × List ActionEvent)),
      (∀ pid ∈ ids, (alookup channels pid).isSome = true) →
      ids.Nodup →
      (drainActions ids channels).1
          = ids.map (fun pid => (pid, oldestOf channels pid)) ∧
      (∀ pid ∈ ids,
        alookup (drainActions ids channels).2 pid
          = (alookup channels pid).map List.tail) ∧
      (∀ pid, pid ∉ ids →
        alookup (drainActions ids channels).2 pid = alookup channels pid) := by
  intro ids
  induction ids with
  | nil =>
    intro channels hcov hnd
    refine ⟨rfl, ?_, fun pid h => rfl⟩
    intro pid hp
    cases hp
  | cons pid rest ih =>
    intro channels hcov hnd
    obtain ⟨q, hq⟩ :=
      Option.isSome_iff_exists.mp (hcov pid (List.mem_cons_self pid rest))
    have hnotin : pid ∉ rest := (List.nodup_cons.mp hnd).1
    have hndrest : rest.Nodup := (List.nodup_cons.mp hnd).2
    have hcov2 : ∀ p ∈ rest, (alookup (aset channels pid q.tail) p).isSome = true := by
      intro p hp
      have hne : p ≠ pid := fun he => hnotin (he ▸ hp)
      rw [alookup_aset_ne _ _ _ _ hne]
      exact hcov p (List.mem_cons_of_mem _ hp)
    obtain ⟨ih1, ih2, ih3⟩ := ih (aset channels pid q.tail) hcov2 hndrest
    have hfst : (drainActions (pid :: rest) channels).1
        = (pid, headOrNone q)
            :: (drainActions rest (aset channels pid q.tail)).1 := by
      simp only [drainActions, hq]
    have hsnd : (drainActions (pid :: rest) channels).2
        = (drainActions rest (aset channels pid q.tail)).2 := by
      simp only [drainActions, hq]
    refine ⟨?_, ?_, ?_⟩
    · rw [hfst, List.map_cons, ih1]
      congr 1
      · cases q with
        | nil => simp [oldestOf, headOrNone, hq]
        | cons e es => simp [oldestOf, headOrNone, hq]
      · apply List.map_congr_left
        intro p hp
        have hne : p ≠ pid := fun he => hnotin (he ▸ hp)
        simp [oldestOf, alookup_aset_ne _ _ _ _ hne]
    · intro p hp
      rcases List.mem_cons.mp hp with he | hp2
      · subst he
        rw [hsnd, ih3 p hnotin, alookup_aset_self _ _ _ _ hq, hq]
        rfl
      · have hne : p ≠ pid := fun he => hnotin (he ▸ hp2)
        rw [hsnd, ih2 p hp2, alookup_aset_ne _ _ _ _ hne]
    · intro p hp
      have hp1 : p ≠ pid := fun he => hp (he ▸ List.mem_cons_self pid rest)
      have hp2 : p ∉ rest := fun hm => hp (List.mem_cons_of_mem _ hm)
      rw [hsnd, ih3 p hp2, alookup_aset_ne _ _ _ _ hp1]

/-- Claim C1: when the Tick Gate timer has just finished, iter_action
snapshots the keys of client_websockets; draining the returned iterator
yields exactly one pair per snapshot player, in snapshot order, whose
event is the oldest unconsumed entry of that player's queue (or
ActionEvent.None when the queue is empty), leaving the rest of each queue
for later intervals; when the timer has not finished, no iterator is
produced.  Requires the dispatcher invariant that every player with a
websocket also has an action channel, and that the snapshot (HashMap key
set) has no duplicates. -/
theorem action_iter_one_per_player (ctx : NetworkContext) (it : ActionMessageIter)
    (fuel : Nat) (pid : PlayerId)
    (hgate : ctx.iter_action true = some it)
    (hcov : ∀ p ∈ ctx.client_websockets.map Prod.fst,
      (alookup ctx.client_channels p).isSome = true)
    (hnd : (ctx.client_websockets.map Prod.fst).Nodup)
    (hfuel : it.player_ids.length ≤ fuel)
    (hpid : pid ∈ it.player_ids) :
    NetworkContext.iter_action ctx false = Option.none ∧
    it.player_ids = ctx.client_websockets.map Prod.fst ∧
    (runActionIter fuel it ctx.client_channels).1
      = it.player_ids.map (fun p => (p, oldestOf ctx.client_channels p)) ∧
    alookup (runActionIter fuel it ctx.client_channels).2 pid
      = (alookup ctx.client_channels pid).map List.tail := by
  have hit : it = ⟨ctx.client_websockets.map Prod.fst, 0⟩ := by
    simp only [NetworkContext.iter_action, if_pos] at hgate
    injection hgate with h2
    exact h2.symm
  subst hit
  obtain ⟨d1, d2, d3⟩ :=
    drainActions_spec (ctx.client_websockets.map Prod.fst) ctx.client_channels hcov hnd
  have hb : runActionIter fuel ⟨ctx.client_websockets.map Prod.fst, 0⟩
        ctx.client_channels
      = drainActions (ctx.client_websockets.map Prod.fst) ctx.client_channels := by
    have hbr := runActionIter_eq_drain fuel (ctx.client_websockets.map Prod.fst) 0
      ctx.client_channels (by simpa using hfuel)
    simpa using hbr
  refine ⟨rfl, rfl, ?_, ?_⟩
  · rw [hb]
    exact d1
  · rw [hb]
    exact d2 pid hpid

theorem action_iter_one_per_player_witness :
    NetworkContext.iter_action ctxW false = Option.none ∧
    itW.player_ids = ctxW.client_websockets.map Prod.fst ∧
    (runActionIter 2 itW ctxW.client_channels).1
      = itW.player_ids.map (fun p => (p, oldestOf ctxW.client_channels p)) ∧
    alookup (runActionIter 2 itW ctxW.client_channels).2 4
      = (alookup ctxW.client_channels 4).map List.tail :=
  action_iter_one_per_player ctxW itW 2 4 (by decide) (by decide) (by decide)
    (by decide) (by decide)

/-- Claim C10 counterexample: a closed channel that still buffers a
message does not make next panic — it yields the buffered message, where
the claim as stated demands a panic whenever the channel has been
closed. -/
theorem general_iter_closed_nonempty_cex :
    (general_message_iter_next
        (some ⟨[⟨1, .General .Disconnected⟩], true⟩)).1
      = .yielded ⟨1, .General .Disconnected⟩ ∧
    (general_message_iter_next
        (some ⟨[⟨1, .General .Disconnected⟩], true⟩)).1
      ≠ .panicked := by
  decide

/-- Claim C10 (amended): GeneralMessageIter::next never blocks and
distinguishes its states as follows: with an uninitialized channel it
yields nothing; with a buffered message it returns Some of the oldest one
(whether or not the channel is closed); with an open empty channel it
yields nothing; and it panics exactly when the channel is closed and
empty. -/
theorem general_iter_next_spec (m : EventMessage) (rest : List EventMessage)
    (b : Bool) :
    general_message_iter_next Option.none = (.finished, Option.none) ∧
    general_message_iter_next (some ⟨m :: rest, b⟩) = (.yielded m, some ⟨rest, b⟩) ∧
    general_message_iter_next (some ⟨[], false⟩) = (.finished, some ⟨[], false⟩) ∧
    general_message_iter_next (some ⟨[], true⟩) = (.panicked, some ⟨[], true⟩) :=
  ⟨rfl, rfl, rfl, rfl⟩
